import Mathlib

/-!
# `gh project item-add`: the command of `pkg/cmd/project/item-add/item_add.go`

A shallow embedding of `NewCmdAddItem` (its `RunE` closure), `runAddItem`,
`addItemArgs`, `printResults` and `printJSON`, together with the Go standard
library function `strconv.ParseInt` that `RunE` uses to read the positional
project number.

Conventions of the embedding:

* a Go `error` result is an `Option Error` (`none` is `nil`); a Go
  `(value, error)` result of a collaborator is an `Except Error value`;
* the collaborators the file imports (`queries`, `format`, `tableprinter`, the
  GraphQL client) are fields of an environment `Env`; every call the embedded
  code makes to one of them is appended to `World.calls`, so that the number
  and the arguments of the calls can be stated;
* `config.tp` is a pointer in the source; the table printer it points to is
  the field `World.tp`;
* machine integers are `Nat`/`Int` with explicit reductions modulo `2^64` and
  `2^32`.
-/

namespace ItemAdd

/-! ## `strconv.ParseInt` -/

/-- The two sentinel errors of `strconv` a `*NumError` can wrap, plus the
errors for a bad `base` or `bitSize` argument. -/
inductive NumError
  | ErrSyntax
  | ErrRange
  | baseError
  | bitSizeError
  deriving DecidableEq, Repr

/-- Go: `const maxUint64 = 1<<64 - 1`. -/
def maxUint64 : Nat := 2 ^ 64 - 1

/-- Go: `func lower(c byte) byte { return c | ('x' - 'X') }`. -/
def lower (c : Nat) : Nat := c ||| 0x20

/-- The `switch` of the loop body of `strconv.ParseUint` that turns a byte
into a digit value (`none` is the `default:` branch, a syntax error). The
`c == '_' && base0` case needs `base == 0` and is not reachable for the bases
`2..36` embedded here. -/
def digitVal (c : Nat) : Option Nat :=
  if 48 ≤ c ∧ c ≤ 57 then some (c - 48)
  else if 97 ≤ lower c ∧ lower c ≤ 122 then some (lower c - 97 + 10)
  else none

/-- The `for _, c := range []byte(s)` loop of `strconv.ParseUint`, with the
accumulator `n` a `uint64`. The result is Go's pair `(uint64, error)`. -/
def parseUintLoop (base maxVal cutoff : Nat) : List Nat → Nat → Nat × Option NumError
  | [], n => (n, none)
  | c :: cs, n =>
    match digitVal c with
    | none => (0, some .ErrSyntax)
    | some d =>
      if d ≥ base then (0, some .ErrSyntax)
      else if n ≥ cutoff then (maxVal, some .ErrRange)
      else
        let n' := (n * base) % 2 ^ 64
        let n1 := (n' + d) % 2 ^ 64
        if n1 < n' ∨ n1 > maxVal then (maxVal, some .ErrRange)
        else parseUintLoop base maxVal cutoff cs n1

/-- Go: `strconv.ParseUint(s, base, bitSize)` on the bytes of `s`, for an
explicit base. The prefix-detecting mode `base == 0` is not embedded (the
command passes base 10); `bitSize == 0` stands for `IntSize = 64`. -/
def ParseUint (s : List Nat) (base bitSize : Nat) : Nat × Option NumError :=
  if s = [] then (0, some .ErrSyntax)
  else if ¬ (2 ≤ base ∧ base ≤ 36) then (0, some .baseError)
  else if bitSize > 64 then (0, some .bitSizeError)
  else
    let bitSize := if bitSize = 0 then 64 else bitSize
    let cutoff := maxUint64 / base + 1
    let maxVal := (2 ^ bitSize - 1) % 2 ^ 64
    parseUintLoop base maxVal cutoff s 0

/-- Go: the conversion `int64(un)` of a `uint64`. -/
def int64 (un : Nat) : Int :=
  if un % 2 ^ 64 < 2 ^ 63 then (un % 2 ^ 64 : Nat) else ((un % 2 ^ 64 : Nat) : Int) - 2 ^ 64

/-- Go: the conversion `int32(num)` of an `int64` (keeps the low 32 bits). -/
def int32 (num : Int) : Int :=
  (num + 2 ^ 31) % 2 ^ 32 - 2 ^ 31

/-- Go: `strconv.ParseInt(s, base, bitSize)` on the bytes of `s`. The result is
Go's pair `(int64, error)`. -/
def ParseInt (s : List Nat) (base bitSize : Nat) : Int × Option NumError :=
  match s with
  | [] => (0, some .ErrSyntax)
  | c :: rest =>
    -- Pick off leading sign.
    let neg := c = 45
    let s' := if c = 43 ∨ c = 45 then rest else s
    -- Convert unsigned and check range.
    match ParseUint s' base bitSize with
    | (_, some .ErrSyntax) => (0, some .ErrSyntax)
    | (_, some .baseError) => (0, some .baseError)
    | (_, some .bitSizeError) => (0, some .bitSizeError)
    | (un, _) =>
      let bitSize := if bitSize = 0 then 64 else bitSize
      let cutoff := 2 ^ (bitSize - 1)
      if ¬ neg ∧ un ≥ cutoff then ((cutoff : Int) - 1, some .ErrRange)
      else if neg ∧ un > cutoff then (- (cutoff : Int), some .ErrRange)
      else
        let n := int64 un
        (if neg then -n else n, none)

/-- The bytes of a Go string. A character outside ASCII is kept as its code
point: each of its UTF-8 bytes is `≥ 0x80`, and `ParseUint` sends both such a
byte and such a code point to its `default:` branch. -/
def bytes (s : String) : List Nat := s.toList.map Char.toNat


/-! ## Data model -/

/-- Go: the `error` values of the command. `cmdutil.FlagErrorf` builds a
`FlagError` around the formatted message; every other error comes from a
collaborator and is kept as its message. -/
inductive Error
  | FlagError (msg : String)
  | other (msg : String)
  deriving DecidableEq, Repr

/-- Go: `*api.GraphQLClient`, an opaque handle made by `queries.NewClient`. -/
structure GraphQLClient where
  handle : Nat
  deriving DecidableEq, Repr

/-- Modelled from the spec: `queries.Owner` is declared outside this file;
spec section 3 gives it an opaque server identifier, a login and a kind. -/
structure Owner where
  ID : String
  Login : String
  isOrg : Bool
  deriving DecidableEq, Repr

/-- Modelled from the spec: `queries.Project` is declared outside this file;
spec section 3 gives it an opaque server identifier and a project number. Only
`ID` is read by the command. -/
structure Project where
  ID : String
  Number : Int
  deriving DecidableEq, Repr

/-- Modelled from the spec: `queries.ProjectItem` is declared outside this
file; spec section 3 gives it an opaque item identifier and the fields that
describe the linked content (title, type, URL). The command never reads a
field of it. -/
structure ProjectItem where
  ID : String
  Title : String
  Kind : String
  URL : String
  deriving DecidableEq, Repr

/-- Go: `type addItemOpts struct`. `number` is an `int32`. -/
structure addItemOpts where
  userOwner : String
  orgOwner : String
  number : Int
  itemURL : String
  projectID : String
  itemID : String
  format : String
  deriving DecidableEq, Repr

/-- Go: `type addItemConfig struct`. The field `tp` is a pointer to the table
printer kept in `World.tp`. -/
structure addItemConfig where
  client : GraphQLClient
  opts : addItemOpts
  deriving DecidableEq, Repr

/-- Go: `type addProjectItemMutation struct`, the typed result the mutation is
decoded into (`CreateProjectItem.ProjectV2Item`, GraphQL field `item`). -/
structure addProjectItemMutation where
  ProjectV2Item : ProjectItem
  deriving DecidableEq, Repr

/-- Go: `githubv4.AddProjectV2ItemByIdInput`: the two required identifiers and
the optional `ClientMutationID`. -/
structure AddProjectV2ItemByIdInput where
  ProjectID : String
  ContentID : String
  ClientMutationID : Option String
  deriving DecidableEq, Repr

/-- Go: the `map[string]interface{}` of mutation variables, as its list of
key/value pairs. -/
abbrev Variables := List (String × AddProjectV2ItemByIdInput)

/-- Modelled from the spec: `tableprinter.TablePrinter` is declared outside
this file; spec sections 4.5 and 6 describe a tabular output surface that is
given rows of fields and renders them (`renderTable(rows)`). `row` holds the
fields added since the last `EndRow`, `rows` the rows ended so far, and
`rendered` the table handed to the output at each `Render` call. -/
structure TablePrinter where
  row : List String
  rows : List (List String)
  rendered : List (List (List String))
  deriving DecidableEq, Repr

/-- Modelled from the spec: `tableprinter.New(f.IOStreams)` is defined outside
this file; it gives a printer with nothing in it. -/
def TablePrinter.New : TablePrinter := ⟨[], [], []⟩

/-- Modelled from the spec: `tp.AddField(s)` is defined outside this file; it
puts one more field at the end of the row in progress. -/
def TablePrinter.AddField (tp : TablePrinter) (s : String) : TablePrinter :=
  { tp with row := tp.row ++ [s] }

/-- Modelled from the spec: `tp.EndRow()` is defined outside this file; it
closes the row in progress. -/
def TablePrinter.EndRow (tp : TablePrinter) : TablePrinter :=
  { tp with row := [], rows := tp.rows ++ [tp.row] }

/-- Modelled from the spec: the table a printer holds, which is its ended rows,
then the row in progress when that one has a field. -/
def TablePrinter.table (tp : TablePrinter) : List (List String) :=
  tp.rows ++ (if tp.row = [] then [] else [tp.row])

/-- Modelled from the spec: `tp.Render()` is defined outside this file; this is
its state change, the table held is handed to the output. Its error result is
`Env.Render`. -/
def TablePrinter.Render (tp : TablePrinter) : TablePrinter :=
  { tp with rendered := tp.rendered ++ [tp.table] }

/-- One call from the embedded code to a collaborator, with its arguments. The
last two record that `RunE` handed the configuration to `runF` or to
`runAddItem`. -/
inductive Call
  | NewClient
  | NewOwner (client : GraphQLClient) (userLogin orgLogin : String)
  | NewProject (client : GraphQLClient) (o : Owner) (number : Int) (fields : Bool)
  | IssueOrPullRequestID (client : GraphQLClient) (rawURL : String)
  | Mutate (client : GraphQLClient) (name : String) (vars : Variables)
  | JSONProjectItem (item : ProjectItem)
  | runF (config : addItemConfig)
  | runAddItem (config : addItemConfig)
  deriving DecidableEq, Repr

/-- What lies outside the command and is observed by the claims: the calls
made so far, oldest first, and the table printer `config.tp` points to. -/
structure World where
  calls : List Call
  tp : TablePrinter
  deriving DecidableEq, Repr

/-- Appends one call to the record. -/
def World.record (w : World) (c : Call) : World :=
  { w with calls := w.calls ++ [c] }

/-- The collaborators of the command, as the results they give. Each is called
at most once in one invocation, so a function of the arguments describes any
behaviour of the real one. `Render` is the error result of `tp.Render()` for a
printer holding the given table. -/
structure Env where
  NewClient : Except Error GraphQLClient
  NewOwner : GraphQLClient → String → String → Except Error Owner
  NewProject : GraphQLClient → Owner → Int → Bool → Except Error Project
  IssueOrPullRequestID : GraphQLClient → String → Except Error String
  Mutate : GraphQLClient → String → addProjectItemMutation → Variables →
    Except Error addProjectItemMutation
  JSONProjectItem : ProjectItem → Except Error String
  Render : TablePrinter → Option Error

/-! ## The command -/

/-- Modelled from the spec: `cmdutil.FlagErrorf` is defined outside this file;
it gives the validation (flag) error that carries the formatted message. -/
def FlagErrorf (msg : String) : Option Error := some (Error.FlagError msg)

/-- Modelled from the spec: `cmdutil.MutuallyExclusive` is defined outside this
file. Spec sections 4.1 and 7: at most one of the selectors may be set, and
setting more than one is a configuration error carrying the given message. -/
def MutuallyExclusive (message : String) (conditions : List Bool) : Option Error :=
  if (conditions.filter (fun ok => ok)).length > 1 then FlagErrorf message else none

/-- Go: `func addItemArgs(config addItemConfig)`; the first component is the
empty `&addProjectItemMutation{}` the response is decoded into. -/
def addItemArgs (config : addItemConfig) : addProjectItemMutation × Variables :=
  ({ ProjectV2Item := { ID := "", Title := "", Kind := "", URL := "" } },
   [("input", { ProjectID := config.opts.projectID,
                ContentID := config.opts.itemID,
                ClientMutationID := none })])

/-- Go: `func printResults(config addItemConfig, item queries.ProjectItem) error`. -/
def printResults (env : Env) (_config : addItemConfig) (_item : ProjectItem) (w : World) :
    Option Error × World :=
  let w := { w with tp := w.tp.AddField "Added item" }
  let w := { w with tp := w.tp.EndRow }
  (env.Render w.tp, { w with tp := w.tp.Render })

/-- Go: `func printJSON(config addItemConfig, item queries.ProjectItem) error`. -/
def printJSON (env : Env) (_config : addItemConfig) (item : ProjectItem) (w : World) :
    Option Error × World :=
  let w := w.record (Call.JSONProjectItem item)
  match env.JSONProjectItem item with
  | .error err => (some err, w)
  | .ok b =>
    let w := { w with tp := w.tp.AddField b }
    (env.Render w.tp, { w with tp := w.tp.Render })

/-- Go: `func runAddItem(config addItemConfig) error`. -/
def runAddItem (env : Env) (config : addItemConfig) (w : World) : Option Error × World :=
  let w := w.record (Call.NewOwner config.client config.opts.userOwner config.opts.orgOwner)
  match env.NewOwner config.client config.opts.userOwner config.opts.orgOwner with
  | .error err => (some err, w)
  | .ok owner =>
    let w := w.record (Call.NewProject config.client owner config.opts.number false)
    match env.NewProject config.client owner config.opts.number false with
    | .error err => (some err, w)
    | .ok project =>
      let config := { config with opts := { config.opts with projectID := project.ID } }
      let w := w.record (Call.IssueOrPullRequestID config.client config.opts.itemURL)
      match env.IssueOrPullRequestID config.client config.opts.itemURL with
      | .error err => (some err, w)
      | .ok itemID =>
        let config := { config with opts := { config.opts with itemID := itemID } }
        let (query, vars) := addItemArgs config
        let w := w.record (Call.Mutate config.client "AddItem" vars)
        match env.Mutate config.client "AddItem" query vars with
        | .error err => (some err, w)
        | .ok query =>
          if config.opts.format = "json" then
            printJSON env config query.ProjectV2Item w
          else
            printResults env config query.ProjectV2Item w

/-- Go: the `RunE` closure of `NewCmdAddItem(f, runF)`. `opts` is the captured
variable as the flags left it, `args` the positional arguments. -/
def RunE (env : Env) (runF : Option (addItemConfig → Option Error)) (opts : addItemOpts)
    (args : List String) (w : World) : Option Error × World :=
  match MutuallyExclusive "only one of `--user` or `--org` may be used"
      [opts.userOwner != "", opts.orgOwner != ""] with
  | some err => (some err, w)
  | none =>
    let w := w.record Call.NewClient
    match env.NewClient with
    | .error err => (some err, w)
    | .ok client =>
      -- if len(args) == 1 { ... }
      let parsed : Except Error addItemOpts :=
        match args with
        | [arg] =>
          match ParseInt (bytes arg) 10 32 with
          | (_, some _) => .error (Error.FlagError ("invalid number: " ++ arg))
          | (num, none) => .ok { opts with number := int32 num }
        | _ => .ok opts
      match parsed with
      | .error err => (some err, w)
      | .ok opts =>
        let w := { w with tp := TablePrinter.New }
        let config : addItemConfig := { client := client, opts := opts }
        -- allow testing of the command without actually running it
        match runF with
        | some f => (f config, w.record (Call.runF config))
        | none => runAddItem env config (w.record (Call.runAddItem config))

/-- Go: `opts := addItemOpts{}` of `NewCmdAddItem` after the flag set has
stored `--user`, `--org`, `--url` and `--format` into it: the fields no flag
writes keep their zero values. -/
def flagOpts (user org url format : String) : addItemOpts :=
  { userOwner := user, orgOwner := org, number := 0, itemURL := url,
    projectID := "", itemID := "", format := format }

/-- One invocation of the command built by `NewCmdAddItem(f, runF)`: the flags
are stored into a fresh `opts`, then `RunE` runs. -/
def NewCmdAddItem (env : Env) (runF : Option (addItemConfig → Option Error))
    (user org url format : String) (args : List String) (w : World) : Option Error × World :=
  RunE env runF (flagOpts user org url format) args w

/-! ## Integer literals, as the claims word them -/

/-- An ASCII decimal digit `'0'..'9'`. -/
def isDigit (c : Nat) : Bool := decide (48 ≤ c ∧ c ≤ 57)

/-- The number a run of decimal digits denotes, read after the digits that
already gave `n`. -/
def decimalFrom (n : Nat) (ds : List Nat) : Nat :=
  ds.foldl (fun acc c => 10 * acc + (c - 48)) n

/-- A run of one or more decimal digits and the number it denotes. -/
def decimalDigits (ds : List Nat) : Option Nat :=
  if ds ≠ [] ∧ ds.all isDigit = true then some (decimalFrom 0 ds) else none

/-- A base-10 signed integer literal: an optional sign `+` or `-` followed by
one or more decimal digits; the result is the integer it denotes, `none` when
the bytes are not such a literal. -/
def intLiteral (s : List Nat) : Option Int :=
  match s with
  | [] => none
  | c :: rest =>
    if c = 43 then (decimalDigits rest).map (fun (v : Nat) => (v : Int))
    else if c = 45 then (decimalDigits rest).map (fun (v : Nat) => - (v : Int))
    else (decimalDigits s).map (fun (v : Nat) => (v : Int))


/-! ## Observations on the record of calls -/

/-- The mutation calls of a record, oldest first: operation name and variables. -/
def mutateCalls (cs : List Call) : List (String × Variables) :=
  cs.filterMap fun
    | .Mutate _ name vars => some (name, vars)
    | _ => none

/-- The project numbers handed to the project resolver, oldest first. -/
def projectNumbers (cs : List Call) : List Int :=
  cs.filterMap fun
    | .NewProject _ _ number _ => some number
    | _ => none

/-! ## Concrete collaborators, for evaluating the command -/

/-- A client handle. -/
def client0 : GraphQLClient := ⟨1⟩

/-- The owner `monalisa`. -/
def owner0 : Owner := ⟨"an ID", "monalisa", false⟩

/-- Project number 1 with identifier `PID`. -/
def project0 : Project := ⟨"PID", 1⟩

/-- The URL of an issue. -/
def url0 : String := "https://github.com/monalisa/myproject/issues/23"

/-- The item a server returns for the mutation. -/
def item0 : ProjectItem := ⟨"item ID", "a title", "Issue", url0⟩

/-- The serialization of `item0`. -/
def json0 : String := "\x7b\"id\":\"item ID\",\"title\":\"a title\",\"type\":\"Issue\"\x7d"

/-- Collaborators that all succeed: the content resolves to `CID`, the mutation
returns `item0`, the serializer knows `item0` only. -/
def env0 : Env where
  NewClient := .ok client0
  NewOwner := fun _ _ _ => .ok owner0
  NewProject := fun _ _ _ _ => .ok project0
  IssueOrPullRequestID := fun _ _ => .ok "CID"
  Mutate := fun _ _ _ _ => .ok ⟨item0⟩
  JSONProjectItem := fun it =>
    if it = item0 then .ok json0 else .error (.other "unsupported item")
  Render := fun _ => none

/-- A decoder for the serializer of `env0`. -/
def decode0 (s : String) : Option ProjectItem := if s = json0 then some item0 else none

/-- Client creation fails. -/
def envNoClient : Env :=
  { env0 with NewClient := .error (.other "authentication token not found") }

/-- The owner does not resolve. -/
def envNoOwner : Env :=
  { env0 with NewOwner := fun _ _ _ => .error (.other "owner not found") }

/-- The project does not resolve. -/
def envNoProject : Env :=
  { env0 with NewProject := fun _ _ _ _ => .error (.other "project not found") }

/-- The content resolver rejects the URL. -/
def envBadURL : Env :=
  { env0 with IssueOrPullRequestID := fun _ _ => .error (.other "invalid URL") }

/-- The server refuses the mutation. -/
def envAlreadyLinked : Env :=
  { env0 with Mutate := fun _ _ _ _ => .error (.other "already linked") }

/-- The serializer fails on every item. -/
def envNoJSON : Env :=
  { env0 with JSONProjectItem := fun _ => .error (.other "json: unsupported value") }

/-- Nothing called yet, an empty printer. -/
def w0 : World := ⟨[], TablePrinter.New⟩

/-- The options `--user monalisa --url url0`, with leftovers in the two
identifier fields. -/
def opts0 : addItemOpts :=
  { flagOpts "monalisa" "" url0 "" with number := 1, projectID := "stale", itemID := "stale" }

/-- A configuration for text output. -/
def config0 : addItemConfig := ⟨client0, opts0⟩

/-- A configuration for JSON output. -/
def configJSON : addItemConfig := ⟨client0, { opts0 with format := "json" }⟩

/-! ## Facts about `strconv.ParseInt` in base 10 with 32 bits -/

/-- Reading more digits never lowers the number. -/
theorem decimalFrom_ge (ds : List Nat) (n : Nat) : n ≤ decimalFrom n ds := by
  induction ds generalizing n with
  | nil => simp [decimalFrom]
  | cons c cs ih =>
    have h := ih (10 * n + (c - 48))
    simp only [decimalFrom, List.foldl_cons] at h ⊢
    omega

/-- A decimal digit has its value below 10. -/
theorem digitVal_of_isDigit {c : Nat} (h : isDigit c = true) :
    digitVal c = some (c - 48) ∧ c - 48 < 10 := by
  simp only [isDigit, decide_eq_true_eq] at h
  constructor
  · simp [digitVal, h]
  · omega

/-- A byte that is not a decimal digit is no digit of base 10. -/
theorem digitVal_of_not_isDigit {c : Nat} (h : isDigit c = false) :
    digitVal c = none ∨ ∃ d, digitVal c = some d ∧ 10 ≤ d := by
  simp only [isDigit, decide_eq_false_iff_not] at h
  unfold digitVal
  rw [if_neg h]
  by_cases h2 : 97 ≤ lower c ∧ lower c ≤ 122
  · right
    exact ⟨lower c - 97 + 10, by rw [if_pos h2], by omega⟩
  · left
    rw [if_neg h2]

/-- The loop of `ParseUint`, base 10 and 32 bits, on digits that stay in range. -/
theorem parseUintLoop_ok (cs : List Nat) (n : Nat) (hd : cs.all isDigit = true)
    (hv : decimalFrom n cs ≤ 4294967295) :
    parseUintLoop 10 4294967295 1844674407370955162 cs n = (decimalFrom n cs, none) := by
  induction cs generalizing n with
  | nil => simp [parseUintLoop, decimalFrom]
  | cons c cs ih =>
    simp only [List.all_cons, Bool.and_eq_true] at hd
    obtain ⟨hdv, hlt⟩ := digitVal_of_isDigit hd.1
    have hge := decimalFrom_ge cs (10 * n + (c - 48))
    have hv' : decimalFrom (10 * n + (c - 48)) cs ≤ 4294967295 := by
      simpa [decimalFrom] using hv
    have h1 : n * 10 % 2 ^ 64 = n * 10 := Nat.mod_eq_of_lt (by omega)
    have h2 : (n * 10 + (c - 48)) % 2 ^ 64 = n * 10 + (c - 48) := Nat.mod_eq_of_lt (by omega)
    have h3 : n * 10 + (c - 48) = 10 * n + (c - 48) := by omega
    unfold parseUintLoop
    simp only [hdv, h1, h2]
    rw [if_neg (by omega), if_neg (by omega), if_neg (by omega), h3, ih _ hd.2 hv']
    simp [decimalFrom]

/-- The loop of `ParseUint`, base 10 and 32 bits, reports no error only on
digits that stay in range. -/
theorem parseUintLoop_none (cs : List Nat) (n : Nat) (hn : n ≤ 4294967295)
    (h : (parseUintLoop 10 4294967295 1844674407370955162 cs n).2 = none) :
    cs.all isDigit = true ∧ decimalFrom n cs ≤ 4294967295 := by
  induction cs generalizing n with
  | nil => simpa [decimalFrom] using hn
  | cons c cs ih =>
    cases hc : isDigit c with
    | false =>
      exfalso
      rcases digitVal_of_not_isDigit hc with hnone | ⟨d, hd, hge⟩
      · unfold parseUintLoop at h
        simp [hnone] at h
      · unfold parseUintLoop at h
        simp only [hd] at h
        rw [if_pos (by omega)] at h
        simp at h
    | true =>
      obtain ⟨hdv, hlt⟩ := digitVal_of_isDigit hc
      have h1 : n * 10 % 2 ^ 64 = n * 10 := Nat.mod_eq_of_lt (by omega)
      have h2 : (n * 10 + (c - 48)) % 2 ^ 64 = n * 10 + (c - 48) := Nat.mod_eq_of_lt (by omega)
      have h3 : n * 10 + (c - 48) = 10 * n + (c - 48) := by omega
      unfold parseUintLoop at h
      simp only [hdv, h1, h2] at h
      rw [if_neg (by omega), if_neg (by omega)] at h
      by_cases hr : n * 10 + (c - 48) < n * 10 ∨ n * 10 + (c - 48) > 4294967295
      · rw [if_pos hr] at h
        simp at h
      · rw [if_neg hr, h3] at h
        have := ih (10 * n + (c - 48)) (by omega) h
        simp only [List.all_cons, hc, Bool.true_and]
        exact ⟨this.1, by simpa [decimalFrom] using this.2⟩

/-- The loop of `ParseUint` returns `maxVal` with every range error. -/
theorem parseUintLoop_range (base maxVal cutoff : Nat) (cs : List Nat) (n : Nat)
    (h : (parseUintLoop base maxVal cutoff cs n).2 = some .ErrRange) :
    (parseUintLoop base maxVal cutoff cs n).1 = maxVal := by
  induction cs generalizing n with
  | nil => simp [parseUintLoop] at h
  | cons c cs ih =>
    unfold parseUintLoop at h ⊢
    cases hd : digitVal c with
    | none => simp [hd] at h
    | some d =>
      simp only [hd] at h ⊢
      split_ifs at h ⊢ with h1 h2 h3
      · simp at h
      · rfl
      · rfl
      · exact ih _ h

/-- The loop of `ParseUint` reports only syntax and range errors. -/
theorem parseUintLoop_error (base maxVal cutoff : Nat) (cs : List Nat) (n : Nat) :
    (parseUintLoop base maxVal cutoff cs n).2 = none ∨
    (parseUintLoop base maxVal cutoff cs n).2 = some .ErrSyntax ∨
    (parseUintLoop base maxVal cutoff cs n).2 = some .ErrRange := by
  induction cs generalizing n with
  | nil => simp [parseUintLoop]
  | cons c cs ih =>
    unfold parseUintLoop
    cases hd : digitVal c with
    | none => simp
    | some d =>
      simp only []
      split_ifs with h1 h2 h3
      · simp
      · simp
      · simp
      · exact ih _

/-- `ParseUint` in base 10 with 32 bits is its loop, started at 0. -/
theorem ParseUint_eq_loop (s : List Nat) (hs : s ≠ []) :
    ParseUint s 10 32 = parseUintLoop 10 4294967295 1844674407370955162 s 0 := by
  simp [ParseUint, hs, maxUint64]

/-- `ParseUint` in base 10 with 32 bits accepts exactly the runs of digits that
denote a number below `2^32`, and returns that number. -/
theorem ParseUint_ok_iff (s : List Nat) (v : Nat) :
    ParseUint s 10 32 = (v, none) ↔ decimalDigits s = some v ∧ v ≤ 4294967295 := by
  by_cases hs : s = []
  · subst hs
    simp [ParseUint, decimalDigits]
  · rw [ParseUint_eq_loop s hs]
    constructor
    · intro h
      have hn := parseUintLoop_none s 0 (by omega) (by rw [h])
      have hok := parseUintLoop_ok s 0 hn.1 hn.2
      rw [hok] at h
      have hv : decimalFrom 0 s = v := by simpa using h
      subst hv
      exact ⟨by simp [decimalDigits, hs, hn.1], hn.2⟩
    · rintro ⟨hd, hv⟩
      unfold decimalDigits at hd
      split_ifs at hd with hc
      have hv' : decimalFrom 0 s = v := by simpa using hd
      subst hv'
      exact parseUintLoop_ok s 0 hc.2 hv

/-- When `ParseUint` in base 10 with 32 bits fails, it is with a syntax error or
with a range error and the value `2^32 - 1`. -/
theorem ParseUint_error (s : List Nat) (e : NumError) (un : Nat)
    (h : ParseUint s 10 32 = (un, some e)) :
    e = .ErrSyntax ∨ (e = .ErrRange ∧ un = 4294967295) := by
  by_cases hs : s = []
  · subst hs
    simp [ParseUint] at h
    exact Or.inl h.2.symm
  · rw [ParseUint_eq_loop s hs] at h
    rcases parseUintLoop_error 10 4294967295 1844674407370955162 s 0 with h0 | h0 | h0
    · rw [h] at h0; simp at h0
    · rw [h] at h0; simp at h0; exact Or.inl h0
    · have h1 := parseUintLoop_range 10 4294967295 1844674407370955162 s 0 h0
      rw [h] at h0 h1
      simp at h0 h1
      exact Or.inr ⟨h0, h1⟩



/-- `int64` keeps a value below `2^32`. -/
theorem int64_small (un : Nat) (h : un ≤ 4294967295) : int64 un = (un : Int) := by
  unfold int64
  have h1 : un % 2 ^ 64 = un := Nat.mod_eq_of_lt (by omega)
  rw [h1, if_pos (by omega)]

/-- `int32` keeps a value that fits in 32 bits. -/
theorem int32_id (n : Int) (h1 : -2147483648 ≤ n) (h2 : n ≤ 2147483647) : int32 n = n := by
  unfold int32
  omega

/-- `ParseInt` after the sign has been picked off, when `ParseUint` succeeded. -/
theorem ParseInt_cons_ok (c : Nat) (rest : List Nat) (un : Nat)
    (h : ParseUint (if c = 43 ∨ c = 45 then rest else c :: rest) 10 32 = (un, none)) :
    ParseInt (c :: rest) 10 32 =
      if ¬ c = 45 ∧ un ≥ 2147483648 then (2147483647, some .ErrRange)
      else if c = 45 ∧ un > 2147483648 then (-2147483648, some .ErrRange)
      else (if c = 45 then - int64 un else int64 un, none) := by
  simp only [ParseInt, h]
  norm_num

/-- `ParseInt` after the sign has been picked off, when `ParseUint` failed. -/
theorem ParseInt_cons_error (c : Nat) (rest : List Nat) (un : Nat) (e : NumError)
    (h : ParseUint (if c = 43 ∨ c = 45 then rest else c :: rest) 10 32 = (un, some e)) :
    (ParseInt (c :: rest) 10 32).2 ≠ none := by
  rcases ParseUint_error _ e un h with he | ⟨he, hun⟩
  · subst he
    simp [ParseInt, h]
  · subst he hun
    simp only [ParseInt, h]
    by_cases hc : c = 45 <;> simp [hc]



/-- The literal read by `intLiteral`, through the string `ParseInt` hands to
`ParseUint`. -/
theorem intLiteral_cons (c : Nat) (rest : List Nat) :
    intLiteral (c :: rest) =
      (decimalDigits (if c = 43 ∨ c = 45 then rest else c :: rest)).map
        (fun (v : Nat) => if c = 45 then - (v : Int) else (v : Int)) := by
  unfold intLiteral
  by_cases h1 : c = 43
  · subst h1; simp
  · by_cases h2 : c = 45
    · subst h2; simp
    · simp [h1, h2]

/-- `strconv.ParseInt(s, 10, 32)` succeeds exactly on the base-10 signed integer
literals whose value fits in 32 bits, and returns that value. -/
theorem ParseInt_ok_iff (s : List Nat) (n : Int) :
    ParseInt s 10 32 = (n, none) ↔
      intLiteral s = some n ∧ -2147483648 ≤ n ∧ n ≤ 2147483647 := by
  cases s with
  | nil => simp [ParseInt, intLiteral]
  | cons c rest =>
    rw [intLiteral_cons]
    rcases hpu : ParseUint (if c = 43 ∨ c = 45 then rest else c :: rest) 10 32 with ⟨un, e⟩
    cases e with
    | none =>
      obtain ⟨hd, hle⟩ := (ParseUint_ok_iff _ un).1 hpu
      rw [ParseInt_cons_ok c rest un hpu, hd, int64_small un hle]
      by_cases hc : c = 45
      · simp only [hc, Option.map_some', if_true, not_true_eq_false, false_and, if_false,
          true_and]
        split_ifs with h1
        · constructor
          · intro h; simp at h
          · rintro ⟨h, h2, h3⟩
            simp at h
            omega
        · constructor
          · intro h
            simp at h
            refine ⟨by simp [h], ?_, ?_⟩ <;> omega
          · rintro ⟨h, -, -⟩
            simp at h
            simp [h]
      · simp only [hc, Option.map_some', if_false, not_false_eq_true, true_and, false_and]
        split_ifs with h1
        · constructor
          · intro h; simp at h
          · rintro ⟨h, h2, h3⟩
            simp at h
            omega
        · constructor
          · intro h
            simp at h
            refine ⟨by simp [h], ?_, ?_⟩ <;> omega
          · rintro ⟨h, -, -⟩
            simp at h
            simp [h]
    | some e =>
      have herr := ParseInt_cons_error c rest un e hpu
      constructor
      · intro h
        rw [h] at herr
        simp at herr
      · rintro ⟨h, h2, h3⟩
        exfalso
        cases hd : decimalDigits (if c = 43 ∨ c = 45 then rest else c :: rest) with
        | none => simp [hd] at h
        | some v =>
          rw [hd] at h
          simp only [Option.map_some', Option.some.injEq] at h
          have hv : v ≤ 4294967295 := by
            split_ifs at h <;> omega
          have := (ParseUint_ok_iff _ v).2 ⟨hd, hv⟩
          rw [this] at hpu
          simp at hpu

/-- When `strconv.ParseInt(s, 10, 32)` reports no error, `s` is a literal in
range and the value returned is the one it denotes. -/
theorem ParseInt_none (s : List Nat) (h : (ParseInt s 10 32).2 = none) :
    intLiteral s = some (ParseInt s 10 32).1 ∧
      -2147483648 ≤ (ParseInt s 10 32).1 ∧ (ParseInt s 10 32).1 ≤ 2147483647 :=
  (ParseInt_ok_iff s _).1 (Prod.ext rfl h)



/-- `RunE` with one positional argument that `ParseInt` rejects, once the flag
check has passed and the client exists. -/
theorem RunE_parse_error (env : Env) (runF : Option (addItemConfig → Option Error))
    (opts : addItemOpts) (arg : String) (w : World) (client : GraphQLClient)
    (hx : MutuallyExclusive "only one of `--user` or `--org` may be used"
      [opts.userOwner != "", opts.orgOwner != ""] = none)
    (hc : env.NewClient = .ok client)
    (hp : (ParseInt (bytes arg) 10 32).2 ≠ none) :
    RunE env runF opts [arg] w =
      (some (Error.FlagError ("invalid number: " ++ arg)),
       { w with calls := w.calls ++ [Call.NewClient] }) := by
  rcases hpi : ParseInt (bytes arg) 10 32 with ⟨num, e⟩
  rw [hpi] at hp
  cases e with
  | none => simp at hp
  | some e => simp [RunE, hx, hc, hpi, World.record]

/-- `RunE` with one positional argument that `ParseInt` accepts, once the flag
check has passed and the client exists: the configuration handed on carries the
parsed number converted to `int32`. -/
theorem RunE_parse_ok (env : Env) (opts : addItemOpts) (arg : String) (w : World)
    (client : GraphQLClient) (num : Int)
    (hx : MutuallyExclusive "only one of `--user` or `--org` may be used"
      [opts.userOwner != "", opts.orgOwner != ""] = none)
    (hc : env.NewClient = .ok client)
    (hp : ParseInt (bytes arg) 10 32 = (num, none)) :
    (∀ f : addItemConfig → Option Error,
      RunE env (some f) opts [arg] w =
        (f { client := client, opts := { opts with number := int32 num } },
         { calls := w.calls ++ [Call.NewClient,
             Call.runF { client := client, opts := { opts with number := int32 num } }],
           tp := TablePrinter.New })) ∧
    RunE env none opts [arg] w =
      runAddItem env { client := client, opts := { opts with number := int32 num } }
        { calls := w.calls ++ [Call.NewClient,
            Call.runAddItem { client := client, opts := { opts with number := int32 num } }],
          tp := TablePrinter.New } := by
  constructor
  · intro f
    simp [RunE, hx, hc, hp, World.record]
  · simp [RunE, hx, hc, hp, World.record]

/-- `ParseInt` fails on every string that is not a literal. -/
theorem ParseInt_error_of_not_literal (s : List Nat) (h : intLiteral s = none) :
    (ParseInt s 10 32).2 ≠ none := by
  intro hn
  have := (ParseInt_none s hn).1
  rw [h] at this
  simp at this

/-- `ParseInt` fails on every literal whose value does not fit in 32 bits. -/
theorem ParseInt_error_of_out_of_range (s : List Nat) (n : Int) (h : intLiteral s = some n)
    (hr : n < -2147483648 ∨ 2147483647 < n) :
    (ParseInt s 10 32).2 ≠ none := by
  intro hn
  have h3 := ParseInt_none s hn
  rw [h] at h3
  have h4 : n = (ParseInt s 10 32).1 := by simpa using h3.1
  omega

/-- Once the owner is resolved, `runAddItem` asks the project resolver exactly
once, for `config.opts.number`. -/
theorem runAddItem_projectNumbers (env : Env) (config : addItemConfig) (w : World)
    (owner : Owner)
    (hO : env.NewOwner config.client config.opts.userOwner config.opts.orgOwner = .ok owner) :
    projectNumbers (runAddItem env config w).2.calls =
      projectNumbers w.calls ++ [config.opts.number] := by
  simp only [runAddItem, hO, addItemArgs, World.record, printJSON, printResults]
  split <;> [skip; split] <;> [skip; skip; split] <;> [skip; skip; skip; split] <;>
    [skip; skip; skip; split; skip] <;> simp [projectNumbers]


/-! ## `strconv.ParseInt` evaluated -/

/-- What `strconv.ParseInt(s, 10, 32)` returns on a few strings: signs, the two
ends of the 32-bit range, one past each end, and strings that are no number. -/
theorem ParseInt_samples :
    ParseInt (bytes "12") 10 32 = (12, none) ∧
    ParseInt (bytes "-3") 10 32 = (-3, none) ∧
    ParseInt (bytes "+7") 10 32 = (7, none) ∧
    ParseInt (bytes "2147483647") 10 32 = (2147483647, none) ∧
    ParseInt (bytes "2147483648") 10 32 = (2147483647, some .ErrRange) ∧
    ParseInt (bytes "-2147483648") 10 32 = (-2147483648, none) ∧
    ParseInt (bytes "-2147483649") 10 32 = (-2147483648, some .ErrRange) ∧
    ParseInt (bytes "1x") 10 32 = (0, some .ErrSyntax) ∧
    ParseInt (bytes "") 10 32 = (0, some .ErrSyntax) ∧
    ParseInt (bytes "-") 10 32 = (0, some .ErrSyntax) ∧
    ParseInt (bytes "1.5") 10 32 = (0, some .ErrSyntax) ∧
    ParseInt (bytes "99999999999999999999999x") 10 32 = (2147483647, some .ErrRange) := by
  decide

/-! ## The claims -/

/-- Claim C1: when both the `--user` login and the `--org` login are non-empty,
the command returns the mutual-exclusivity error and leaves the world as it
found it: no call is recorded (no client creation, no resolver, no mutation, no
`runF`, no `runAddItem`) and the table printer is untouched. -/
theorem RunE_user_and_org_exclusive (env : Env)
    (runF : Option (addItemConfig → Option Error)) (opts : addItemOpts)
    (args : List String) (w : World) (hu : opts.userOwner ≠ "") (ho : opts.orgOwner ≠ "") :
    RunE env runF opts args w =
      (some (Error.FlagError "only one of `--user` or `--org` may be used"), w) := by
  simp [RunE, MutuallyExclusive, FlagErrorf, hu, ho]

/-- Claim C1 at `--user monalisa --org github`, with a `runF` that would
succeed: the error is returned and nothing is recorded. -/
theorem RunE_user_and_org_exclusive_witness :
    RunE env0 (some fun _ => none) (flagOpts "monalisa" "github" url0 "") ["1"] w0 =
      (some (Error.FlagError "only one of `--user` or `--org` may be used"), w0) :=
  RunE_user_and_org_exclusive env0 (some fun _ => none)
    (flagOpts "monalisa" "github" url0 "") ["1"] w0 (by decide) (by decide)

/-- Claim C2: when the owner resolves, the project resolves to a project with
identifier `PID` and the content resolves to `CID`, `runAddItem` adds exactly
one mutation call to the record, named `AddItem`, whose variables are the single
entry `input` with `ProjectID = PID`, `ContentID = CID` and no client mutation
identifier, whatever `opts.projectID` and `opts.itemID` held on entry. -/
theorem runAddItem_mutates_once (env : Env) (config : addItemConfig) (w : World)
    (owner : Owner) (project : Project) (PID CID : String)
    (hO : env.NewOwner config.client config.opts.userOwner config.opts.orgOwner = .ok owner)
    (hP : env.NewProject config.client owner config.opts.number false = .ok project)
    (hPID : project.ID = PID)
    (hC : env.IssueOrPullRequestID config.client config.opts.itemURL = .ok CID) :
    mutateCalls (runAddItem env config w).2.calls =
      mutateCalls w.calls ++
        [("AddItem",
          [("input", { ProjectID := PID, ContentID := CID, ClientMutationID := none })])] := by
  subst hPID
  simp only [runAddItem, hO, hP, hC, addItemArgs, World.record, printJSON, printResults]
  split <;> [skip; split] <;> [skip; split; skip] <;> simp [mutateCalls]

/-- Claim C2 on a configuration whose identifier fields hold `stale` on entry:
the one mutation carries `PID` and `CID`. -/
theorem runAddItem_mutates_once_witness :
    config0.opts.projectID = "stale" ∧ config0.opts.itemID = "stale" ∧
    mutateCalls (runAddItem env0 config0 w0).2.calls =
      mutateCalls w0.calls ++
        [("AddItem",
          [("input", { ProjectID := "PID", ContentID := "CID", ClientMutationID := none })])] :=
  ⟨rfl, rfl, runAddItem_mutates_once env0 config0 w0 owner0 project0 "PID" "CID" rfl rfl rfl rfl⟩

/-- Claim C3: when the owner resolver, the project resolver or the content
resolver fails, `runAddItem` returns that error unchanged, and the world it
leaves holds only the calls up to the failing one: no later resolver, no
mutation, no serializer call, and the table printer as it was. -/
theorem runAddItem_resolution_error (env : Env) (config : addItemConfig) (w : World) :
    (∀ err, env.NewOwner config.client config.opts.userOwner config.opts.orgOwner = .error err →
      runAddItem env config w =
        (some err,
         { w with calls := w.calls ++
            [Call.NewOwner config.client config.opts.userOwner config.opts.orgOwner] })) ∧
    (∀ owner err,
      env.NewOwner config.client config.opts.userOwner config.opts.orgOwner = .ok owner →
      env.NewProject config.client owner config.opts.number false = .error err →
      runAddItem env config w =
        (some err,
         { w with calls := w.calls ++
            [Call.NewOwner config.client config.opts.userOwner config.opts.orgOwner,
             Call.NewProject config.client owner config.opts.number false] })) ∧
    (∀ owner project err,
      env.NewOwner config.client config.opts.userOwner config.opts.orgOwner = .ok owner →
      env.NewProject config.client owner config.opts.number false = .ok project →
      env.IssueOrPullRequestID config.client config.opts.itemURL = .error err →
      runAddItem env config w =
        (some err,
         { w with calls := w.calls ++
            [Call.NewOwner config.client config.opts.userOwner config.opts.orgOwner,
             Call.NewProject config.client owner config.opts.number false,
             Call.IssueOrPullRequestID config.client config.opts.itemURL] })) := by
  refine ⟨?_, ?_, ?_⟩
  · intro err hO
    simp [runAddItem, hO, World.record]
  · intro owner err hO hP
    simp [runAddItem, hO, hP, World.record]
  · intro owner project err hO hP hC
    simp [runAddItem, hO, hP, hC, World.record]

/-- Claim C3 with an owner that does not resolve, a project that does not
resolve, and a URL the content resolver rejects. -/
theorem runAddItem_resolution_error_witness :
    runAddItem envNoOwner config0 w0 =
      (some (Error.other "owner not found"),
       { w0 with calls := w0.calls ++ [Call.NewOwner client0 "monalisa" ""] }) ∧
    runAddItem envNoProject config0 w0 =
      (some (Error.other "project not found"),
       { w0 with calls := w0.calls ++
          [Call.NewOwner client0 "monalisa" "", Call.NewProject client0 owner0 1 false] }) ∧
    runAddItem envBadURL config0 w0 =
      (some (Error.other "invalid URL"),
       { w0 with calls := w0.calls ++
          [Call.NewOwner client0 "monalisa" "", Call.NewProject client0 owner0 1 false,
           Call.IssueOrPullRequestID client0 url0] }) :=
  ⟨(runAddItem_resolution_error envNoOwner config0 w0).1 _ rfl,
   (runAddItem_resolution_error envNoProject config0 w0).2.1 owner0 _ rfl rfl,
   (runAddItem_resolution_error envBadURL config0 w0).2.2 owner0 project0 _ rfl rfl rfl⟩

/-- Claim C4: when the three resolutions succeed and the mutation returns an
error, `runAddItem` returns exactly that error; the world it leaves holds the
three resolver calls and one mutation call, no serializer call, and the table
printer as it was, in every format. -/
theorem runAddItem_mutation_error (env : Env) (config : addItemConfig) (w : World)
    (owner : Owner) (project : Project) (itemID : String) (err : Error)
    (hO : env.NewOwner config.client config.opts.userOwner config.opts.orgOwner = .ok owner)
    (hP : env.NewProject config.client owner config.opts.number false = .ok project)
    (hC : env.IssueOrPullRequestID config.client config.opts.itemURL = .ok itemID)
    (hM : env.Mutate config.client "AddItem"
      { ProjectV2Item := { ID := "", Title := "", Kind := "", URL := "" } }
      [("input", { ProjectID := project.ID, ContentID := itemID, ClientMutationID := none })]
      = .error err) :
    runAddItem env config w =
      (some err,
       { w with calls := w.calls ++
          [Call.NewOwner config.client config.opts.userOwner config.opts.orgOwner,
           Call.NewProject config.client owner config.opts.number false,
           Call.IssueOrPullRequestID config.client config.opts.itemURL,
           Call.Mutate config.client "AddItem"
             [("input", { ProjectID := project.ID, ContentID := itemID,
                          ClientMutationID := none })]] }) := by
  simp [runAddItem, hO, hP, hC, hM, addItemArgs, World.record]

/-- Claim C4 with a server that answers `already linked`, in JSON format. -/
theorem runAddItem_mutation_error_witness :
    runAddItem envAlreadyLinked configJSON w0 =
      (some (Error.other "already linked"),
       { w0 with calls := w0.calls ++
          [Call.NewOwner client0 "monalisa" "", Call.NewProject client0 owner0 1 false,
           Call.IssueOrPullRequestID client0 url0,
           Call.Mutate client0 "AddItem"
             [("input", { ProjectID := "PID", ContentID := "CID",
                          ClientMutationID := none })]] }) :=
  runAddItem_mutation_error envAlreadyLinked configJSON w0 owner0 project0 "CID" _
    rfl rfl rfl rfl

/-- Claim C5: when the mutation succeeds and the format is not `json`, what
`runAddItem` does to the table printer is: add the field `Added item`, end the
row, render. On the empty printer the command builds, the table rendered is the
one row with the one field `Added item`. Neither depends on the item returned. -/
theorem runAddItem_text_output (env : Env) (config : addItemConfig) (w : World)
    (owner : Owner) (project : Project) (itemID : String) (query : addProjectItemMutation)
    (hO : env.NewOwner config.client config.opts.userOwner config.opts.orgOwner = .ok owner)
    (hP : env.NewProject config.client owner config.opts.number false = .ok project)
    (hC : env.IssueOrPullRequestID config.client config.opts.itemURL = .ok itemID)
    (hM : env.Mutate config.client "AddItem"
      { ProjectV2Item := { ID := "", Title := "", Kind := "", URL := "" } }
      [("input", { ProjectID := project.ID, ContentID := itemID, ClientMutationID := none })]
      = .ok query)
    (hf : config.opts.format ≠ "json") :
    (runAddItem env config w).2.tp = ((w.tp.AddField "Added item").EndRow).Render ∧
    (runAddItem env config { w with tp := TablePrinter.New }).2.tp =
      { row := [], rows := [["Added item"]], rendered := [[["Added item"]]] } ∧
    (∀ item item', printResults env config item w = printResults env config item' w) := by
  refine ⟨?_, ?_, ?_⟩
  · simp [runAddItem, hO, hP, hC, hM, hf, addItemArgs, World.record, printResults]
  · simp [runAddItem, hO, hP, hC, hM, hf, addItemArgs, World.record, printResults,
      TablePrinter.New, TablePrinter.AddField, TablePrinter.EndRow, TablePrinter.Render,
      TablePrinter.table]
  · intro item item'
    rfl

/-- Claim C5 with the default (empty) format: one rendered table, of one row
with the one field `Added item`. -/
theorem runAddItem_text_output_witness :
    config0.opts.format = "" ∧
    (runAddItem env0 config0 w0).2.tp.rendered = [[["Added item"]]] :=
  ⟨rfl, by
    have h := (runAddItem_text_output env0 config0 w0 owner0 project0 "CID" ⟨item0⟩
      rfl rfl rfl rfl (by decide)).2.1
    exact congrArg TablePrinter.rendered h⟩

/-- Claim C6: when the mutation succeeds, the format is `json` and the
serializer turns the returned item into the text `b`, what `runAddItem` does to
the table printer is: add the field `b`, render (no row is ended, so the row of
the text mode is absent). On the empty printer the command builds, the table
rendered is the single field `b`, and every decoder that inverts the serializer
gives back the returned item from it. -/
theorem runAddItem_json_output (env : Env) (config : addItemConfig) (w : World)
    (owner : Owner) (project : Project) (itemID : String) (query : addProjectItemMutation)
    (b : String)
    (hO : env.NewOwner config.client config.opts.userOwner config.opts.orgOwner = .ok owner)
    (hP : env.NewProject config.client owner config.opts.number false = .ok project)
    (hC : env.IssueOrPullRequestID config.client config.opts.itemURL = .ok itemID)
    (hM : env.Mutate config.client "AddItem"
      { ProjectV2Item := { ID := "", Title := "", Kind := "", URL := "" } }
      [("input", { ProjectID := project.ID, ContentID := itemID, ClientMutationID := none })]
      = .ok query)
    (hf : config.opts.format = "json")
    (hJ : env.JSONProjectItem query.ProjectV2Item = .ok b) :
    (runAddItem env config w).2.tp = (w.tp.AddField b).Render ∧
    (runAddItem env config { w with tp := TablePrinter.New }).2.tp =
      { row := [b], rows := [], rendered := [[[b]]] } ∧
    (∀ decode : String → Option ProjectItem,
      (∀ item s, env.JSONProjectItem item = .ok s → decode s = some item) →
      ((runAddItem env config { w with tp := TablePrinter.New }).2.tp.rendered.map
        (fun table => table.map (fun row => row.map decode))) =
        [[[some query.ProjectV2Item]]]) := by
  have h2 : (runAddItem env config { w with tp := TablePrinter.New }).2.tp =
      { row := [b], rows := [], rendered := [[[b]]] } := by
    simp [runAddItem, hO, hP, hC, hM, hf, hJ, addItemArgs, World.record, printJSON,
      TablePrinter.New, TablePrinter.AddField, TablePrinter.Render, TablePrinter.table]
  refine ⟨?_, h2, ?_⟩
  · simp [runAddItem, hO, hP, hC, hM, hf, hJ, addItemArgs, World.record, printJSON]
  · intro decode hdec
    rw [h2]
    simp [hdec _ _ hJ]

/-- The decoder `decode0` inverts the serializer of `env0`. -/
theorem decode0_inverts (item : ProjectItem) (s : String)
    (h : env0.JSONProjectItem item = .ok s) : decode0 s = some item := by
  by_cases hi : item = item0
  · subst hi
    have hs : json0 = s := by simpa [env0] using h
    subst hs
    simp [decode0]
  · simp [env0, hi] at h

/-- Claim C6 with the serializer of `env0`: the rendered table is the single
field `json0`, and decoding it gives `item0`, the item the mutation returned. -/
theorem runAddItem_json_output_witness :
    (runAddItem env0 configJSON w0).2.tp =
      { row := [json0], rows := [], rendered := [[[json0]]] } ∧
    ((runAddItem env0 configJSON w0).2.tp.rendered.map
      (fun table => table.map (fun row => row.map decode0))) = [[[some item0]]] :=
  ⟨(runAddItem_json_output env0 configJSON w0 owner0 project0 "CID" ⟨item0⟩ json0
      rfl rfl rfl rfl rfl rfl).2.1,
   (runAddItem_json_output env0 configJSON w0 owner0 project0 "CID" ⟨item0⟩ json0
      rfl rfl rfl rfl rfl rfl).2.2 decode0 decode0_inverts⟩

/-- Claim C7 fails as stated: with the argument `abc`, which is no integer
literal, and a client that cannot be created, the command returns the client
error, not the `invalid number` flag error. -/
theorem RunE_not_a_literal_client_error :
    intLiteral (bytes "abc") = none ∧
    RunE envNoClient none (flagOpts "monalisa" "" url0 "") ["abc"] w0 =
      (some (Error.other "authentication token not found"),
       { calls := [Call.NewClient], tp := TablePrinter.New }) ∧
    (RunE envNoClient none (flagOpts "monalisa" "" url0 "") ["abc"] w0).1 ≠
      some (Error.FlagError ("invalid number: " ++ "abc")) := by
  decide

/-- Claim C7, amended: for every positional argument that is not a base-10
integer literal the command fails and records at most the client creation, so
neither `runF` nor `runAddItem` is invoked and no resolver and no mutation is
called; and when the `--user`/`--org` check has passed and the client has been
created, the error is the flag error `invalid number: ` followed by the
argument as given. -/
theorem RunE_not_a_literal (env : Env) (runF : Option (addItemConfig → Option Error))
    (opts : addItemOpts) (arg : String) (w : World)
    (hlit : intLiteral (bytes arg) = none) :
    (RunE env runF opts [arg] w).1 ≠ none ∧
    ((RunE env runF opts [arg] w).2 = w ∨
      (RunE env runF opts [arg] w).2 = { w with calls := w.calls ++ [Call.NewClient] }) ∧
    (∀ client,
      MutuallyExclusive "only one of `--user` or `--org` may be used"
        [opts.userOwner != "", opts.orgOwner != ""] = none →
      env.NewClient = .ok client →
      RunE env runF opts [arg] w =
        (some (Error.FlagError ("invalid number: " ++ arg)),
         { w with calls := w.calls ++ [Call.NewClient] })) := by
  have hp := ParseInt_error_of_not_literal (bytes arg) hlit
  have h3 : ∀ client,
      MutuallyExclusive "only one of `--user` or `--org` may be used"
        [opts.userOwner != "", opts.orgOwner != ""] = none →
      env.NewClient = .ok client →
      RunE env runF opts [arg] w =
        (some (Error.FlagError ("invalid number: " ++ arg)),
         { w with calls := w.calls ++ [Call.NewClient] }) :=
    fun client hx hc => RunE_parse_error env runF opts arg w client hx hc hp
  refine ⟨?_, ?_, h3⟩
  · cases hx : MutuallyExclusive "only one of `--user` or `--org` may be used"
        [opts.userOwner != "", opts.orgOwner != ""] with
    | some err => simp [RunE, hx]
    | none =>
      cases hc : env.NewClient with
      | error err => simp [RunE, hx, hc]
      | ok client => rw [h3 client hx hc]; simp
  · cases hx : MutuallyExclusive "only one of `--user` or `--org` may be used"
        [opts.userOwner != "", opts.orgOwner != ""] with
    | some err => simp [RunE, hx]
    | none =>
      cases hc : env.NewClient with
      | error err => simp [RunE, hx, hc, World.record]
      | ok client => rw [h3 client hx hc]; simp

/-- Claim C7, amended, at the argument `1x` with collaborators that all succeed
and a `runF` that would succeed: the `invalid number: 1x` flag error, and only
the client creation recorded. -/
theorem RunE_not_a_literal_witness :
    intLiteral (bytes "1x") = none ∧
    RunE env0 (some fun _ => none) (flagOpts "monalisa" "" url0 "") ["1x"] w0 =
      (some (Error.FlagError ("invalid number: " ++ "1x")),
       { w0 with calls := w0.calls ++ [Call.NewClient] }) :=
  ⟨by decide,
   (RunE_not_a_literal env0 (some fun _ => none) (flagOpts "monalisa" "" url0 "") "1x" w0
      (by decide)).2.2 client0 (by decide) rfl⟩

/-- Claim C8 fails as stated: the arguments `-3` and `0` denote a negative
integer and zero, and the command hands exactly these numbers to the project
resolver. -/
theorem NewCmdAddItem_passes_nonpositive :
    intLiteral (bytes "-3") = some (-3) ∧
    projectNumbers (NewCmdAddItem env0 none "monalisa" "" url0 "" ["-3"] w0).2.calls = [-3] ∧
    intLiteral (bytes "0") = some 0 ∧
    projectNumbers (NewCmdAddItem env0 none "monalisa" "" url0 "" ["0"] w0).2.calls = [0] := by
  decide

/-- Claim C8, amended: the project number handed to the project resolver from a
positional argument is the integer the argument denotes, of either sign: for
every argument that denotes an integer `n` with `-2^31 ≤ n ≤ 2^31 - 1` (zero and
the negative ones included), once the `--user`/`--org` check has passed, the
client is created and the owner resolved, the command run without `runF` calls
the project resolver exactly once, with the number `n`. -/
theorem RunE_passes_number (env : Env) (opts : addItemOpts) (arg : String) (w : World)
    (client : GraphQLClient) (owner : Owner) (n : Int)
    (hx : MutuallyExclusive "only one of `--user` or `--org` may be used"
      [opts.userOwner != "", opts.orgOwner != ""] = none)
    (hc : env.NewClient = .ok client)
    (hO : env.NewOwner client opts.userOwner opts.orgOwner = .ok owner)
    (hlit : intLiteral (bytes arg) = some n)
    (hlo : -2147483648 ≤ n) (hhi : n ≤ 2147483647) :
    projectNumbers (RunE env none opts [arg] w).2.calls = projectNumbers w.calls ++ [n] := by
  have hp := (ParseInt_ok_iff (bytes arg) n).2 ⟨hlit, hlo, hhi⟩
  rw [(RunE_parse_ok env opts arg w client n hx hc hp).2, int32_id n hlo hhi]
  rw [runAddItem_projectNumbers env _ _ owner hO]
  simp [projectNumbers]

/-- Claim C8, amended, at the argument `-2147483648`, the least 32-bit integer:
it is the number the project resolver is asked for. -/
theorem RunE_passes_number_witness :
    intLiteral (bytes "-2147483648") = some (-2147483648) ∧
    projectNumbers
      (RunE env0 none (flagOpts "monalisa" "" url0 "") ["-2147483648"] w0).2.calls =
      projectNumbers w0.calls ++ [-2147483648] :=
  ⟨by decide,
   RunE_passes_number env0 (flagOpts "monalisa" "" url0 "") "-2147483648" w0 client0 owner0
     (-2147483648) (by decide) rfl rfl (by decide) (by decide) (by decide)⟩

/-- Claim C9: when the serializer returns an error, `printJSON` returns that
error and leaves the table printer as it was (no field added, nothing
rendered); when the serializer returns the text `b`, `printJSON` adds the field
`b` and renders; `printResults` always adds the field `Added item`, ends the row
and renders. Each returns what `Render` returns. So each of the two either
leaves the printer untouched or performs all the steps of its mode. -/
theorem print_no_partial_output (env : Env) (config : addItemConfig) (item : ProjectItem)
    (w : World) :
    (∀ err, env.JSONProjectItem item = .error err →
      printJSON env config item w =
        (some err, { w with calls := w.calls ++ [Call.JSONProjectItem item] })) ∧
    (∀ b, env.JSONProjectItem item = .ok b →
      printJSON env config item w =
        (env.Render (w.tp.AddField b),
         { calls := w.calls ++ [Call.JSONProjectItem item],
           tp := (w.tp.AddField b).Render })) ∧
    printResults env config item w =
      (env.Render ((w.tp.AddField "Added item").EndRow),
       { w with tp := ((w.tp.AddField "Added item").EndRow).Render }) := by
  refine ⟨?_, ?_, ?_⟩
  · intro err h
    simp [printJSON, h, World.record]
  · intro b h
    simp [printJSON, h, World.record]
  · rfl

/-- Claim C9 with a serializer that fails and with one that succeeds. -/
theorem print_no_partial_output_witness :
    printJSON envNoJSON configJSON item0 w0 =
      (some (Error.other "json: unsupported value"),
       { w0 with calls := w0.calls ++ [Call.JSONProjectItem item0] }) ∧
    printJSON env0 configJSON item0 w0 =
      (env0.Render (w0.tp.AddField json0),
       { calls := w0.calls ++ [Call.JSONProjectItem item0],
         tp := (w0.tp.AddField json0).Render }) :=
  ⟨(print_no_partial_output envNoJSON configJSON item0 w0).1 _ rfl,
   (print_no_partial_output env0 configJSON item0 w0).2.1 json0 rfl⟩

/-- Claim C10 fails as stated: with the argument `2147483648`, a literal one
past the 32-bit range, and a client that cannot be created, the command returns
the client error, not the `invalid number` flag error. -/
theorem RunE_out_of_range_client_error :
    intLiteral (bytes "2147483648") = some 2147483648 ∧
    RunE envNoClient none (flagOpts "monalisa" "" url0 "") ["2147483648"] w0 =
      (some (Error.other "authentication token not found"),
       { calls := [Call.NewClient], tp := TablePrinter.New }) ∧
    (RunE envNoClient none (flagOpts "monalisa" "" url0 "") ["2147483648"] w0).1 ≠
      some (Error.FlagError ("invalid number: " ++ "2147483648")) := by
  decide

/-- Claim C10, amended: once the `--user`/`--org` check has passed and the
client has been created, the positional number never wraps around. An argument
that is a base-10 signed integer literal of value `n` with
`-2^31 ≤ n ≤ 2^31 - 1` is accepted, and the configuration handed to `runF` or to
`runAddItem` carries `number = n`; every other argument, a literal out of that
range included, is rejected with the flag error `invalid number: ` followed by
the argument, and nothing is handed on; with no positional argument the
configuration carries the number of `opts` unchanged, which is 0 in the options
the flags produce. -/
theorem RunE_number_exact (env : Env) (opts : addItemOpts) (w : World)
    (client : GraphQLClient)
    (hx : MutuallyExclusive "only one of `--user` or `--org` may be used"
      [opts.userOwner != "", opts.orgOwner != ""] = none)
    (hc : env.NewClient = .ok client) :
    (∀ arg n, intLiteral (bytes arg) = some n → -2147483648 ≤ n → n ≤ 2147483647 →
      (∀ f : addItemConfig → Option Error,
        RunE env (some f) opts [arg] w =
          (f { client := client, opts := { opts with number := n } },
           { calls := w.calls ++ [Call.NewClient,
               Call.runF { client := client, opts := { opts with number := n } }],
             tp := TablePrinter.New })) ∧
      RunE env none opts [arg] w =
        runAddItem env { client := client, opts := { opts with number := n } }
          { calls := w.calls ++ [Call.NewClient,
              Call.runAddItem { client := client, opts := { opts with number := n } }],
            tp := TablePrinter.New }) ∧
    (∀ runF arg,
      (∀ n, intLiteral (bytes arg) = some n → n < -2147483648 ∨ 2147483647 < n) →
      RunE env runF opts [arg] w =
        (some (Error.FlagError ("invalid number: " ++ arg)),
         { w with calls := w.calls ++ [Call.NewClient] })) ∧
    ((∀ f : addItemConfig → Option Error,
        RunE env (some f) opts [] w =
          (f { client := client, opts := opts },
           { calls := w.calls ++ [Call.NewClient,
               Call.runF { client := client, opts := opts }],
             tp := TablePrinter.New })) ∧
      RunE env none opts [] w =
        runAddItem env { client := client, opts := opts }
          { calls := w.calls ++ [Call.NewClient,
              Call.runAddItem { client := client, opts := opts }],
            tp := TablePrinter.New }) ∧
    (∀ user org url format, (flagOpts user org url format).number = 0) := by
  refine ⟨?_, ?_, ⟨?_, ?_⟩, ?_⟩
  · intro arg n hlit hlo hhi
    have hp := (ParseInt_ok_iff (bytes arg) n).2 ⟨hlit, hlo, hhi⟩
    have h := RunE_parse_ok env opts arg w client n hx hc hp
    rw [int32_id n hlo hhi] at h
    exact h
  · intro runF arg hout
    apply RunE_parse_error env runF opts arg w client hx hc
    cases hl : intLiteral (bytes arg) with
    | none => exact ParseInt_error_of_not_literal _ hl
    | some n => exact ParseInt_error_of_out_of_range _ n hl (hout n hl)
  · intro f
    simp [RunE, hx, hc, World.record]
  · simp [RunE, hx, hc, World.record]
  · intro user org url format
    rfl

/-- Claim C10, amended, at the two ends of the range: `2147483647` is handed to
`runF` as it is, and `2147483648` is rejected where a 32-bit truncation would
have given `-2147483648`. -/
theorem RunE_number_exact_witness :
    RunE env0 (some fun _ => none) (flagOpts "monalisa" "" url0 "") ["2147483647"] w0 =
      (none,
       { calls := w0.calls ++ [Call.NewClient,
           Call.runF { client := client0,
                       opts := { flagOpts "monalisa" "" url0 "" with number := 2147483647 } }],
         tp := TablePrinter.New }) ∧
    int32 2147483648 = -2147483648 ∧
    RunE env0 (some fun _ => none) (flagOpts "monalisa" "" url0 "") ["2147483648"] w0 =
      (some (Error.FlagError ("invalid number: " ++ "2147483648")),
       { w0 with calls := w0.calls ++ [Call.NewClient] }) :=
  ⟨((RunE_number_exact env0 (flagOpts "monalisa" "" url0 "") w0 client0 (by decide) rfl).1
      "2147483647" 2147483647 (by decide) (by decide) (by decide)).1 (fun _ => none),
   by decide,
   (RunE_number_exact env0 (flagOpts "monalisa" "" url0 "") w0 client0 (by decide) rfl).2.1
      (some fun _ => none) "2147483648" (by
        intro n hn
        have h : intLiteral (bytes "2147483648") = some 2147483648 := by decide
        rw [h] at hn
        have : (2147483648 : Int) = n := by simpa using hn
        omega)⟩

end ItemAdd
